import Mathlib

/-!
Verification of the Oracles Elixir cleaning pipeline
(src/oracles_elixir/oracles_elixir.py).

The pandas DataFrame is shallowly embedded as a list of rows together with
an explicit column list; a row is a total function from column names to
cells, and a cell is an optional value (Option = NaN / missing).  Each
static method of the OraclesElixir class is translated to a Lean function
of the same name; fallible pandas operations (missing columns, unparsable
dates, invalid granularity, positional index overruns) are modelled with
Except.
-/

/-- A scalar value held in one cell of the table: a string, a number
(pandas floats are modelled as rationals), or a parsed date (epoch day). -/
inductive Val : Type where
  | s (x : String)
  | n (x : ℚ)
  | d (x : Int)
deriving DecidableEq

/-- One cell of the table; `none` models NaN / missing. -/
abbrev Cell := Option Val

/-- One row: a total assignment of cells to column names.  Columns outside
the column list of the enclosing DataFrame are never read. -/
abbrev Row := String → Cell

/-- The embedding of a pandas DataFrame: the ordered column list plus the
ordered list of rows. -/
structure DataFrame where
  cols : List String
  rows : List Row

/-- Build a row from an association list; absent columns are missing. -/
def mkRow (ps : List (String × Cell)) : Row :=
  fun c => (ps.lookup c).join

/-- The values of one column, in row order (pandas `df[c].to_list()`). -/
def colVals (df : DataFrame) (c : String) : List Cell :=
  df.rows.map (fun r => r c)

/-- Assign a full column of values (pandas `df[c] = vs` / `df.assign`):
overwrites in place if the column exists, else appends it at the end. -/
def setCol (df : DataFrame) (c : String) (vs : List Cell) : DataFrame :=
  { cols := if c ∈ df.cols then df.cols else df.cols ++ [c],
    rows := List.zipWith (fun r v => fun x => if x = c then v else r x) df.rows vs }

/-- Apply a cell transformation to one column. -/
def mapCol (df : DataFrame) (c : String) (f : Cell → Cell) : DataFrame :=
  setCol df c ((colVals df c).map f)

/-- Number of rows of `rows` whose gameid cell equals `some g`
(pandas `value_counts` of the gameid column, looked up at `g`). -/
def countVal (rows : List Row) (g : Val) : Nat :=
  (rows.filter (fun r => decide (r "gameid" = some g))).length

/-- `a.fillna(b)` on one pair of cells. -/
def fillCell : Cell → Cell → Cell
  | none, b => b
  | some v, _ => some v

/-- Strip leading and trailing whitespace (Python `str.strip`), computed on
the character list. -/
def trimStr (s : String) : String :=
  ((s.data.dropWhile Char.isWhitespace).reverse.dropWhile Char.isWhitespace).reverse.asString

/-- Lowercasing (Python `str.lower`), computed on the character list. -/
def lowerStr (s : String) : String :=
  (s.data.map Char.toLower).asString

/-! ### The opponent computation (module-level function get_opponent) -/

/-- The loop body of get_opponent: `n` iterations remain, `i` is the current
enumerate index, `flag` is the running cycle counter.  For `flag < gap` the
value at offset `+gap` is read (IndexError past the end); for
`gap ≤ flag < 2*gap` the value at offset `-gap` is read.  After each
iteration the flag is incremented and reset to 0 once it reaches `2*gap`. -/
def oppLoop (column : List Cell) (gap : Nat) : Nat → Nat → Nat → Except String (List Cell)
  | 0, _, _ => .ok []
  | n + 1, i, flag =>
    if flag < gap then
      match column.get? (i + gap) with
      | some v =>
        (oppLoop column gap n (i + 1) (if flag + 1 ≥ gap * 2 then 0 else flag + 1)).map
          (fun rest => v :: rest)
      | none => .error "IndexError"
    else if flag < gap * 2 then
      match column.get? (i - gap) with
      | some v =>
        (oppLoop column gap n (i + 1) (if flag + 1 ≥ gap * 2 then 0 else flag + 1)).map
          (fun rest => v :: rest)
      | none => .error "IndexError"
    else .error "Index Out Of Bounds"

/-- Translation of `get_opponent(column, entity)`: gap is 5 for players and
1 for teams (`gap_dict.get(entity)`), any other entity raises ValueError;
then the flag-cycling loop walks the whole column. -/
def get_opponent (column : List Cell) (entity : Option String) : Except String (List Cell) :=
  match (match entity with
         | some "player" => some 5
         | some "team" => some 1
         | _ => none : Option Nat) with
  | none => .error "Entity must be either player or team."
  | some gap => oppLoop column gap column.length 0 0

/-- The index the opponent value at position `i` is read from: `i + gap`
in the first half of the cycle, `i - gap` in the second half. -/
def oppIndex (gap i : Nat) : Nat :=
  if i % (gap * 2) < gap then i + gap else i - gap

/-! ### The pipeline stages (static methods of OraclesElixir) -/

/-- `pd.to_datetime` on one cell: missing stays missing, an already parsed
date passes through, anything else is an unparsable date (FormatError). -/
def to_datetime : Cell → Except String Cell
  | none => .ok none
  | some (Val.d x) => .ok (some (Val.d x))
  | some _ => .error "FormatError"

/-- `Series.str.strip()` on one cell: strings are trimmed, non-string
values become NaN (pandas `.str` accessor semantics). -/
def stripCell : Cell → Cell
  | some (Val.s x) => some (Val.s (trimStr x))
  | _ => none

/-- The null-sentinel replacement `{"": nan, "nan": nan, "null": nan}`. -/
def replaceSentinels : Cell → Cell
  | some (Val.s x) => if x = "" ∨ x = "nan" ∨ x = "null" then none else some (Val.s x)
  | c => c

/-- `gamelength / 60` on one cell; non-numeric non-missing cells are a
type error in pandas. -/
def div60 : Cell → Except String Cell
  | none => .ok none
  | some (Val.n q) => .ok (some (Val.n (q / 60)))
  | some _ => .error "TypeError"

/-- `df.replace({c: sentinels})`: pandas silently ignores columns that are
not present. -/
def replaceIn (df : DataFrame) (c : String) : DataFrame :=
  if c ∈ df.cols then mapCol df c replaceSentinels else df

/-- Translation of `OraclesElixir.format_data_types`: parse the date
column, strip the id columns, replace the null sentinels in the id and
position columns, convert gamelength to minutes.  Reading a missing column
is a KeyError. -/
def format_data_types (df : DataFrame) : Except String DataFrame := do
  if "date" ∈ df.cols then pure () else .error "KeyError"
  let dates ← (colVals df "date").mapM to_datetime
  let df := setCol df "date" dates
  if "gameid" ∈ df.cols ∧ "playerid" ∈ df.cols ∧ "teamid" ∈ df.cols then pure ()
    else .error "KeyError"
  let df := mapCol df "gameid" stripCell
  let df := mapCol df "playerid" stripCell
  let df := mapCol df "teamid" stripCell
  let df := replaceIn df "gameid"
  let df := replaceIn df "playerid"
  let df := replaceIn df "teamid"
  let df := replaceIn df "position"
  if "gamelength" ∈ df.cols then pure () else .error "KeyError"
  let gl ← (colVals df "gamelength").mapM div60
  pure (setCol df "gamelength" gl)

/-- Translation of `OraclesElixir.remove_null_games`:
`df.dropna(subset=["gameid"])`.  Modelled as total: every caller reaches it
only after `format_data_types` has already required the gameid column, so
the pandas KeyError on a missing gameid column is unreachable here. -/
def remove_null_games (df : DataFrame) : DataFrame :=
  { df with rows := df.rows.filter (fun r => (r "gameid").isSome) }

/-- Translation of `OraclesElixir.drop_unknown_entities`: reading the
playername or teamname column of a table that lacks it is a pandas
KeyError; otherwise drop rows whose playername is "unknown player" or
whose teamname is "unknown team" (`isin`: NaN matches nothing, so rows
with missing names are kept). -/
def drop_unknown_entities (df : DataFrame) : Except String DataFrame :=
  if "playername" ∈ df.cols ∧ "teamname" ∈ df.cols then
    .ok { df with rows := df.rows.filter (fun r =>
      decide (¬ r "playername" = some (Val.s "unknown player") ∧
              ¬ r "teamname" = some (Val.s "unknown team"))) }
  else .error "KeyError"

example : (get_opponent [some (Val.s "a"), some (Val.s "b")] (some "team")).toOption =
    some [some (Val.s "b"), some (Val.s "a")] := rfl

example : (get_opponent [some (Val.s "a")] (some "team")).toOption = none := rfl

example : (get_opponent [some (Val.s "a"), none] (some "x")).toOption = none := rfl

/-! ### The stable sorter (sort_data) -/

/-- Three-way comparison induced by a linear order. -/
def linCmp {beta : Type} [LinearOrder beta] (a b : beta) : Ordering :=
  if a < b then .lt else if b < a then .gt else .eq

/-- Lexicographic extension of a three-way comparison to lists. -/
def lexCmp {alpha : Type} (c : alpha → alpha → Ordering) : List alpha → List alpha → Ordering
  | [], [] => .eq
  | [], _ :: _ => .lt
  | _ :: _, [] => .gt
  | a :: as, b :: bs =>
    match c a b with
    | .eq => lexCmp c as bs
    | o => o

theorem linCmp_lt_iff {beta : Type} [LinearOrder beta] {a b : beta} :
    linCmp a b = .lt ↔ a < b := by
  unfold linCmp
  split_ifs with h1 h2
  · simp [h1]
  · simp [asymm h2]
  · simp [h1]

theorem linCmp_gt_iff {beta : Type} [LinearOrder beta] {a b : beta} :
    linCmp a b = .gt ↔ b < a := by
  unfold linCmp
  split_ifs with h1 h2
  · simp [asymm h1]
  · simp [h2]
  · simp [h2]

theorem linCmp_refl {beta : Type} [LinearOrder beta] (a : beta) : linCmp a a = .eq := by
  simp [linCmp]

theorem linCmp_eq {beta : Type} [LinearOrder beta] {a b : beta}
    (h : linCmp a b = .eq) : a = b := by
  unfold linCmp at h
  split_ifs at h with h1 h2
  exact le_antisymm (le_of_not_lt h2) (le_of_not_lt h1)

theorem linCmp_swap {beta : Type} [LinearOrder beta] (a b : beta) :
    linCmp a b = (linCmp b a).swap := by
  unfold linCmp
  rcases lt_trichotomy a b with h | rfl | h
  · rw [if_pos h, if_neg (asymm h), if_pos h]
    rfl
  · simp only [lt_irrefl, if_false]
    rfl
  · rw [if_neg (asymm h), if_pos h, if_pos h]
    rfl

theorem linCmp_lt_trans {beta : Type} [LinearOrder beta] {a b d : beta}
    (h1 : linCmp a b = .lt) (h2 : linCmp b d = .lt) : linCmp a d = .lt :=
  linCmp_lt_iff.mpr (lt_trans (linCmp_lt_iff.mp h1) (linCmp_lt_iff.mp h2))

theorem lexCmp_refl {alpha : Type} {c : alpha → alpha → Ordering}
    (hrefl : ∀ a, c a a = .eq) : ∀ l, lexCmp c l l = .eq
  | [] => rfl
  | a :: l => by
    simp only [lexCmp, hrefl a]
    exact lexCmp_refl hrefl l

theorem lexCmp_eq {alpha : Type} {c : alpha → alpha → Ordering}
    (heq : ∀ a b, c a b = .eq → a = b) :
    ∀ p q, lexCmp c p q = .eq → p = q
  | [], [], _ => rfl
  | [], _ :: _, h => by simp [lexCmp] at h
  | _ :: _, [], h => by simp [lexCmp] at h
  | a :: as, b :: bs, h => by
    simp only [lexCmp] at h
    cases hab : c a b with
    | lt => simp [hab] at h
    | gt => simp [hab] at h
    | eq =>
      simp only [hab] at h
      obtain rfl := heq a b hab
      rw [lexCmp_eq heq as bs h]

theorem lexCmp_swap {alpha : Type} {c : alpha → alpha → Ordering}
    (hswap : ∀ a b, c a b = (c b a).swap) :
    ∀ p q, lexCmp c p q = (lexCmp c q p).swap
  | [], [] => rfl
  | [], _ :: _ => rfl
  | _ :: _, [] => rfl
  | a :: as, b :: bs => by
    simp only [lexCmp]
    rw [hswap a b]
    cases hba : c b a with
    | lt => simp [Ordering.swap]
    | gt => simp [Ordering.swap]
    | eq =>
      simp only [Ordering.swap]
      exact lexCmp_swap hswap as bs

theorem lexCmp_lt_trans {alpha : Type} {c : alpha → alpha → Ordering}
    (heq : ∀ a b, c a b = .eq → a = b)
    (hlt : ∀ a b d, c a b = .lt → c b d = .lt → c a d = .lt) :
    ∀ p q t, lexCmp c p q = .lt → lexCmp c q t = .lt → lexCmp c p t = .lt
  | [], [], _, h1, _ => by simp [lexCmp] at h1
  | [], _ :: _, [], _, h2 => by simp [lexCmp] at h2
  | [], _ :: _, _ :: _, _, _ => rfl
  | _ :: _, [], _, h1, _ => by simp [lexCmp] at h1
  | _ :: _, _ :: _, [], _, h2 => by simp [lexCmp] at h2
  | a :: as, b :: bs, d :: ds, h1, h2 => by
    simp only [lexCmp] at h1 h2 ⊢
    cases hab : c a b with
    | lt =>
      cases hbd : c b d with
      | lt => simp [hlt a b d hab hbd]
      | eq =>
        have hb := heq b d hbd
        subst hb
        simp [hab]
      | gt => simp [hbd] at h2
    | eq =>
      have hb := heq a b hab
      subst hb
      simp only [hab] at h1
      cases hbd : c a d with
      | lt => simp [hbd]
      | eq =>
        simp only [hbd] at h2 ⊢
        exact lexCmp_lt_trans heq hlt as bs ds h1 h2
      | gt => simp [hbd] at h2
    | gt => simp [hab] at h1

/-- For a comparator that is reflexive, substitutive on `.eq` and
transitive on `.lt`, the relation `c a b ≠ .gt` is transitive. -/
theorem cmp_not_gt_trans {alpha : Type} {c : alpha → alpha → Ordering}
    (heq : ∀ a b, c a b = .eq → a = b)
    (hlt : ∀ a b d, c a b = .lt → c b d = .lt → c a d = .lt)
    {a b d : alpha} (h1 : c a b ≠ .gt) (h2 : c b d ≠ .gt) : c a d ≠ .gt := by
  cases hab : c a b with
  | gt => exact absurd hab h1
  | eq => obtain rfl := heq a b hab; exact h2
  | lt =>
    cases hbd : c b d with
    | gt => exact absurd hbd h2
    | eq => obtain rfl := heq b d hbd; rw [hab]; simp
    | lt => rw [hlt a b d hab hbd]; simp

/-- Totality of `c a b ≠ .gt` for a comparator satisfying the swap law. -/
theorem cmp_not_gt_total {alpha : Type} {c : alpha → alpha → Ordering}
    (hswap : ∀ a b, c a b = (c b a).swap) (a b : alpha) :
    c a b ≠ .gt ∨ c b a ≠ .gt := by
  cases hab : c a b with
  | gt =>
    right
    rw [hswap b a, hab]
    simp [Ordering.swap]
  | eq => left; simp
  | lt => left; simp

/-- Three-way comparison of scalar values: strings sort before numbers
before dates (homogeneous columns only ever exercise one block), strings
lexicographically by character, numbers and dates by value. -/
def valCmp : Val → Val → Ordering
  | Val.s a, Val.s b => lexCmp linCmp a.data b.data
  | Val.s _, _ => .lt
  | Val.n _, Val.s _ => .gt
  | Val.n a, Val.n b => linCmp a b
  | Val.n _, Val.d _ => .lt
  | Val.d a, Val.d b => linCmp a b
  | Val.d _, _ => .gt

/-- Three-way comparison of cells; NaN sorts last, matching the pandas
default `na_position="last"`. -/
def cellCmp : Cell → Cell → Ordering
  | none, none => .eq
  | none, some _ => .gt
  | some _, none => .lt
  | some a, some b => valCmp a b

/-- Lexicographic comparison of row keys (lists of cells). -/
def keyCmp : List Cell → List Cell → Ordering := lexCmp cellCmp

theorem valCmp_refl (v : Val) : valCmp v v = .eq := by
  cases v with
  | s a => exact lexCmp_refl linCmp_refl a.data
  | n a => exact linCmp_refl a
  | d a => exact linCmp_refl a

theorem valCmp_eq : ∀ v w : Val, valCmp v w = .eq → v = w := by
  intro v w h
  cases v <;> cases w <;> simp [valCmp] at h ⊢
  · have := lexCmp_eq (fun a b hab => linCmp_eq hab) _ _ h
    exact String.ext this
  · exact linCmp_eq h
  · exact linCmp_eq h

theorem valCmp_swap (v w : Val) : valCmp v w = (valCmp w v).swap := by
  cases v <;> cases w <;> simp only [valCmp] <;> try rfl
  · exact lexCmp_swap linCmp_swap _ _
  · exact linCmp_swap _ _
  · exact linCmp_swap _ _

theorem valCmp_lt_trans :
    ∀ u v w : Val, valCmp u v = .lt → valCmp v w = .lt → valCmp u w = .lt := by
  intro u v w h1 h2
  cases u <;> cases v <;> cases w <;> simp [valCmp] at h1 h2 ⊢
  · exact lexCmp_lt_trans (fun a b hab => linCmp_eq hab)
      (fun a b d => linCmp_lt_trans) _ _ _ h1 h2
  · exact linCmp_lt_trans h1 h2
  · exact linCmp_lt_trans h1 h2

theorem cellCmp_refl (v : Cell) : cellCmp v v = .eq := by
  cases v with
  | none => rfl
  | some a => exact valCmp_refl a

theorem cellCmp_eq : ∀ v w : Cell, cellCmp v w = .eq → v = w := by
  intro v w h
  cases v <;> cases w <;> simp [cellCmp] at h ⊢
  exact valCmp_eq _ _ h

theorem cellCmp_swap (v w : Cell) : cellCmp v w = (cellCmp w v).swap := by
  cases v <;> cases w <;> simp only [cellCmp] <;> try rfl
  exact valCmp_swap _ _

theorem cellCmp_lt_trans :
    ∀ u v w : Cell, cellCmp u v = .lt → cellCmp v w = .lt → cellCmp u w = .lt := by
  intro u v w h1 h2
  cases u <;> cases v <;> cases w <;> simp [cellCmp] at h1 h2 ⊢
  exact valCmp_lt_trans _ _ _ h1 h2

theorem keyCmp_refl (k : List Cell) : keyCmp k k = .eq :=
  lexCmp_refl cellCmp_refl k

theorem keyCmp_eq {p q : List Cell} (h : keyCmp p q = .eq) : p = q :=
  lexCmp_eq cellCmp_eq p q h

theorem keyCmp_swap (p q : List Cell) : keyCmp p q = (keyCmp q p).swap :=
  lexCmp_swap cellCmp_swap p q

theorem keyCmp_lt_trans {p q t : List Cell}
    (h1 : keyCmp p q = .lt) (h2 : keyCmp q t = .lt) : keyCmp p t = .lt :=
  lexCmp_lt_trans cellCmp_eq cellCmp_lt_trans p q t h1 h2

/-- Sort key of a row at team granularity:
`["league", "date", "gameid", "side"]`. -/
def rowKeyTeam (r : Row) : List Cell :=
  [r "league", r "date", r "gameid", r "side"]

/-- Sort key of a row at player granularity:
`["league", "date", "gameid", "side", "position"]`. -/
def rowKeyPlayer (r : Row) : List Cell :=
  [r "league", r "date", r "gameid", r "side", r "position"]

/-- Row comparison used by the team-granularity sort. -/
def rowLeTeam (a b : Row) : Prop := keyCmp (rowKeyTeam a) (rowKeyTeam b) ≠ .gt

/-- Row comparison used by the player-granularity sort. -/
def rowLePlayer (a b : Row) : Prop := keyCmp (rowKeyPlayer a) (rowKeyPlayer b) ≠ .gt

instance : DecidableRel rowLeTeam :=
  fun a b => inferInstanceAs (Decidable ¬ (keyCmp (rowKeyTeam a) (rowKeyTeam b) = .gt))

instance : DecidableRel rowLePlayer :=
  fun a b => inferInstanceAs (Decidable ¬ (keyCmp (rowKeyPlayer a) (rowKeyPlayer b) = .gt))

instance : IsTotal Row rowLeTeam :=
  ⟨fun a b => cmp_not_gt_total keyCmp_swap (rowKeyTeam a) (rowKeyTeam b)⟩

instance : IsTotal Row rowLePlayer :=
  ⟨fun a b => cmp_not_gt_total keyCmp_swap (rowKeyPlayer a) (rowKeyPlayer b)⟩

instance : IsTrans Row rowLeTeam :=
  ⟨fun _ _ _ h1 h2 =>
    cmp_not_gt_trans (fun _ _ h => keyCmp_eq h) (fun _ _ _ hx hy => keyCmp_lt_trans hx hy) h1 h2⟩

instance : IsTrans Row rowLePlayer :=
  ⟨fun _ _ _ h1 h2 =>
    cmp_not_gt_trans (fun _ _ h => keyCmp_eq h) (fun _ _ _ hx hy => keyCmp_lt_trans hx hy) h1 h2⟩

/-- Translation of `OraclesElixir.sort_data`: a stable multi-column sort
(pandas `sort_values` on several columns uses the stable `np.lexsort`),
modelled by insertion sort, which is stable.  For any `split_on` other
than exactly "player" or "team" the Python function falls through both
branches and returns None. -/
def sort_data (df : DataFrame) (split_on : Option String) : Option DataFrame :=
  if split_on = some "player" then
    some { df with rows := List.insertionSort rowLePlayer df.rows }
  else if split_on = some "team" then
    some { df with rows := List.insertionSort rowLeTeam df.rows }
  else none

/-! ### Remaining pipeline stages -/

/-- Translation of `OraclesElixir.fill_null_team_ids`: only at player
granularity, fill missing teamid cells from teamname; otherwise the table
is returned unchanged. -/
def fill_null_team_ids (df : DataFrame) (split_on : Option String) : DataFrame :=
  if split_on = some "player" then
    setCol df "teamid" (List.zipWith fillCell (colVals df "teamid") (colVals df "teamname"))
  else df

/-- The team column list of `OraclesElixir.subset_data`. -/
def teamColsList : List String :=
  ["date", "gameid", "side", "league", "patch", "teamname", "teamid", "result",
   "kills", "deaths", "assists", "egpm", "gamelength", "ckpm", "team kpm",
   "firstblood", "dragons", "barons", "towers", "goldat15", "xpat15", "csat15",
   "golddiffat15", "xpdiffat15", "csdiffat15"]

/-- The player column list of `OraclesElixir.subset_data`. -/
def playerColsList : List String :=
  ["date", "gameid", "side", "position", "league", "patch", "playername",
   "playerid", "teamname", "teamid", "result", "kills", "deaths", "assists",
   "total cs", "egpm", "earnedgoldshare", "damagetochampions", "dpm",
   "damageshare", "damagetakenperminute", "wardsplaced", "wpm", "wardskilled",
   "wcpm", "controlwardsbought", "visionscore", "vspm", "totalgold",
   "monsterkills", "minionkills", "gamelength", "ckpm", "cspm", "team kpm",
   "goldat15", "xpat15", "csat15", "killsat15", "assistsat15", "deathsat15",
   "opp_killsat15", "opp_assistsat15", "opp_deathsat15", "golddiffat15",
   "xpdiffat15", "csdiffat15"]

/-- `df.rename(columns={o: w})`: pandas silently ignores a missing source
column. -/
def renameCol (df : DataFrame) (o w : String) : DataFrame :=
  if o ∈ df.cols then
    { cols := df.cols.map (fun c => if c = o then w else c),
      rows := df.rows.map (fun r => fun x => if x = w then r o else r x) }
  else df

/-- Translation of `OraclesElixir.subset_data`: if `split_on` is a key of
the column dictionary, rename "earned gpm" to "egpm", keep the team rows
(`position == "team"`) or the player rows (`position != "team"`), and
project onto the fixed column list; otherwise raise ValueError. -/
def subset_data (df : DataFrame) (split_on : Option String) : Except String DataFrame :=
  match split_on with
  | some s =>
    if s = "team" ∨ s = "player" then do
      let df := renameCol df "earned gpm" "egpm"
      if "position" ∈ df.cols then pure () else .error "KeyError"
      let df :=
        if lowerStr s = "team" then
          { df with rows := df.rows.filter (fun r => decide (r "position" = some (Val.s "team"))) }
        else
          { df with rows := df.rows.filter (fun r => decide (¬ r "position" = some (Val.s "team"))) }
      let wanted := if s = "team" then teamColsList else playerColsList
      if wanted.all (fun c => decide (c ∈ df.cols)) then pure () else .error "KeyError"
      pure { df with cols := wanted }
    else .error "Must split on either player or team."
  | none => .error "Must split on either player or team."

/-- Translation of `OraclesElixir.remove_inconsistent_games`: count the
rows of each gameid (`value_counts` skips NaN, so rows with a missing
gameid always survive the `isin` test) and keep only the games whose count
is exactly 2 when `split_on.lower()` is "team", exactly 10 otherwise.
Calling it with `split_on=None` is an AttributeError (`None.lower()`). -/
def remove_inconsistent_games (df : DataFrame) (split_on : Option String) :
    Except String DataFrame :=
  match split_on with
  | none => .error "AttributeError"
  | some s =>
    let expected : Nat := if lowerStr s = "team" then 2 else 10
    .ok { df with rows := df.rows.filter (fun r =>
      match r "gameid" with
      | none => true
      | some g => decide (countVal df.rows g = expected)) }

/-- Translation of `OraclesElixir.enrich_opponent_metrics`: all metric
columns are computed from the incoming table first (teamid backfilled from
teamname, the opponent columns read by `get_opponent` from the raw columns),
then assigned in dictionary order; at player granularity the playerid
backfill and the opponent player columns are added to the dictionary. -/
def enrich_opponent_metrics (df : DataFrame) (split_on : Option String) :
    Except String DataFrame := do
  let teamidNew := List.zipWith fillCell (colVals df "teamid") (colVals df "teamname")
  let oppTeam ← get_opponent (colVals df "teamname") split_on
  let oppTeamId ← get_opponent (colVals df "teamid") split_on
  let oppEgpm ← get_opponent (colVals df "egpm") split_on
  if split_on = some "player" then do
    let playeridNew := List.zipWith fillCell (colVals df "playerid") (colVals df "playername")
    let oppName ← get_opponent (colVals df "playername") split_on
    let oppId ← get_opponent (colVals df "playerid") split_on
    pure (setCol (setCol (setCol (setCol (setCol (setCol (setCol df
      "teamid" teamidNew) "opponentteam" oppTeam) "opponentteamid" oppTeamId)
      "opponent_egpm" oppEgpm) "playerid" playeridNew) "opponentname" oppName)
      "opponentid" oppId)
  else
    pure (setCol (setCol (setCol (setCol df
      "teamid" teamidNew) "opponentteam" oppTeam) "opponentteamid" oppTeamId)
      "opponent_egpm" oppEgpm)

/-- The first six statements of `OraclesElixir.clean_data`, i.e. the whole
pipeline up to and including `subset_data`.  When `split_on` is neither
"team" nor "player", `sort_data` returns None, `fill_null_team_ids` passes
the None through (its player branch is not taken), and `subset_data` then
raises the ValueError without touching the data. -/
def pipeline_before_filter (df : DataFrame) (split_on : Option String) :
    Except String DataFrame := do
  let df ← format_data_types df
  let df := remove_null_games df
  let df ← drop_unknown_entities df
  match sort_data df split_on with
  | some df => subset_data (fill_null_team_ids df split_on) split_on
  | none => .error "Must split on either player or team."

/-- Translation of `OraclesElixir.clean_data`: the released statement
sequence — format, remove null games, drop unknown entities, sort, fill
null team ids, subset, remove inconsistent games, and only then enrich
opponent metrics. -/
def clean_data (df : DataFrame) (split_on : Option String) : Except String DataFrame := do
  let df ← format_data_types df
  let df := remove_null_games df
  let df ← drop_unknown_entities df
  match sort_data df split_on with
  | some df => do
    let df := fill_null_team_ids df split_on
    let df ← subset_data df split_on
    let df ← remove_inconsistent_games df split_on
    enrich_opponent_metrics df split_on
  | none => .error "Must split on either player or team."

/-! ### Concrete tables used by the witnesses and counterexamples -/

/-- The numeric passthrough columns shared by the concrete test tables. -/
def numCols : List String :=
  ["result", "kills", "deaths", "assists", "earned gpm", "ckpm", "team kpm",
   "firstblood", "dragons", "barons", "towers", "goldat15", "xpat15", "csat15",
   "golddiffat15", "xpdiffat15", "csdiffat15"]

/-- The raw column list of the concrete test tables. -/
def rawCols : List String :=
  ["date", "gameid", "playerid", "teamid", "gamelength", "playername",
   "teamname", "league", "side", "patch", "position"] ++ numCols

/-- A raw team-granularity row: one side of one game. -/
def teamRow (gid sd tn : String) (tid : Cell) : Row :=
  mkRow ([("date", some (Val.d 1)), ("gameid", some (Val.s gid)),
          ("playerid", none), ("teamid", tid),
          ("gamelength", some (Val.n 600)), ("playername", none),
          ("teamname", some (Val.s tn)),
          ("league", some (Val.s "L")), ("side", some (Val.s sd)),
          ("patch", some (Val.s "p")), ("position", some (Val.s "team"))] ++
         numCols.map (fun c => (c, some (Val.n 0))))

/-- Two rows of one complete game; the second row has a missing raw teamid. -/
def dfMissingTid : DataFrame :=
  ⟨rawCols, [teamRow "g1" "b" "A" (some (Val.s "T1")), teamRow "g1" "r" "B" none]⟩

/-- One complete game plus one ragged single-row game. -/
def dfRagged : DataFrame :=
  ⟨rawCols, [teamRow "g1" "b" "A" (some (Val.s "T1")),
             teamRow "g1" "r" "B" (some (Val.s "T2")),
             teamRow "g2" "b" "C" (some (Val.s "T3"))]⟩

/-- A minimal raw table that the Type Normalizer and the Row Filter
stages accept: it carries the playername and teamname columns that
drop_unknown_entities reads. -/
def dfSmall : DataFrame :=
  ⟨["date", "gameid", "playerid", "teamid", "gamelength", "playername",
    "teamname"],
   [mkRow [("date", some (Val.d 1)), ("gameid", some (Val.s "g1")),
           ("playerid", none), ("teamid", some (Val.s "T1")),
           ("gamelength", some (Val.n 600)), ("playername", none),
           ("teamname", some (Val.s "T"))]]⟩

/-- Two rows of one game, used against the Consistency Filter directly. -/
def dfTwo : DataFrame :=
  ⟨["gameid"], [mkRow [("gameid", some (Val.s "g"))], mkRow [("gameid", some (Val.s "g"))]]⟩

/-- One row with a missing teamid and a present teamname. -/
def dfOneMissing : DataFrame :=
  ⟨["teamid", "teamname"], [mkRow [("teamid", none), ("teamname", some (Val.s "A"))]]⟩

/-- Modelled from the spec: the stage ordering the specification asserts
for the released pipeline, with the Consistency Filter
(`remove_inconsistent_games`) applied after the Opponent Enricher
(`enrich_opponent_metrics`).  Used only to compare against the ordering
the source actually executes. -/
def clean_data_filter_after_enrich (df : DataFrame) (split_on : Option String) :
    Except String DataFrame := do
  let df ← format_data_types df
  let df := remove_null_games df
  let df ← drop_unknown_entities df
  match sort_data df split_on with
  | some df => do
    let df := fill_null_team_ids df split_on
    let df ← subset_data df split_on
    let df ← enrich_opponent_metrics df split_on
    remove_inconsistent_games df split_on
  | none => .error "Must split on either player or team."


/-! ### Characterization of the opponent loop -/

theorem succ_mod_eq (i m : Nat) (hm : 1 < m) :
    (i + 1) % m = if i % m + 1 = m then 0 else i % m + 1 := by
  have h1 : (i + 1) % m = (i % m + 1) % m := by
    conv_lhs => rw [Nat.add_mod, Nat.mod_eq_of_lt hm]
  split_ifs with h
  · rw [h1, h, Nat.mod_self]
  · have hlt : i % m + 1 < m :=
      Nat.lt_of_le_of_ne (Nat.succ_le_of_lt (Nat.mod_lt i (by omega))) h
    rw [h1, Nat.mod_eq_of_lt hlt]

theorem oppLoop_spec (column : List Cell) (gap : Nat) (hgap : 0 < gap) :
    ∀ n i, i + n = column.length →
      oppLoop column gap n i (i % (gap * 2)) =
        if ∀ j, j < n → ((i + j) % (gap * 2) < gap → i + j + gap < column.length)
        then .ok ((List.range n).map
          (fun j => (column.get? (oppIndex gap (i + j))).getD none))
        else .error "IndexError" := by
  intro n
  induction n with
  | zero =>
    intro i hi
    simp [oppLoop]
  | succ n ih =>
    intro i hi
    have hm : 1 < gap * 2 := by omega
    have hmod : i % (gap * 2) < gap * 2 := Nat.mod_lt _ (by omega)
    have hflag : (if i % (gap * 2) + 1 ≥ gap * 2 then 0 else i % (gap * 2) + 1)
        = (i + 1) % (gap * 2) := by
      rw [succ_mod_eq i (gap * 2) hm]
      by_cases h : i % (gap * 2) + 1 = gap * 2
      · rw [if_pos (by omega), if_pos h]
      · rw [if_neg (by omega), if_neg h]
    by_cases hfl : i % (gap * 2) < gap
    · cases hget : column.get? (i + gap) with
      | some v =>
        have hlen : i + gap < column.length := by
          by_contra hc
          rw [List.get?_eq_none.mpr (by omega)] at hget
          exact Option.noConfusion hget
        simp only [oppLoop]
        rw [if_pos hfl]
        simp only [hget]
        rw [hflag, ih (i + 1) (by omega)]
        by_cases hcond : ∀ j, j < n →
            ((i + 1 + j) % (gap * 2) < gap → i + 1 + j + gap < column.length)
        · rw [if_pos hcond]
          have hcond' : ∀ j, j < n + 1 →
              ((i + j) % (gap * 2) < gap → i + j + gap < column.length) := by
            intro j hj hmodj
            cases j with
            | zero => simpa using hlen
            | succ j' =>
              have e : i + (j' + 1) = i + 1 + j' := by omega
              rw [e] at hmodj ⊢
              exact hcond j' (by omega) hmodj
          rw [if_pos hcond']
          simp only [Except.map]
          congr 1
          rw [List.range_succ_eq_map]
          simp only [List.map_cons, List.map_map]
          congr 1
          · have e : oppIndex gap (i + 0) = i + gap := by
              simp [oppIndex, hfl]
            rw [e, hget]
            rfl
          · apply List.map_congr_left
            intro j _
            have e : i + 1 + j = i + (j + 1) := by omega
            simp [Function.comp, e, Nat.succ_eq_add_one]
        · rw [if_neg hcond]
          have hnot : ¬ ∀ j, j < n + 1 →
              ((i + j) % (gap * 2) < gap → i + j + gap < column.length) := by
            intro hall
            apply hcond
            intro j hj hmodj
            have e : i + 1 + j = i + (j + 1) := by omega
            rw [e] at hmodj ⊢
            exact hall (j + 1) (by omega) hmodj
          rw [if_neg hnot]
          rfl
      | none =>
        have hlen : column.length ≤ i + gap := List.get?_eq_none.mp hget
        simp only [oppLoop]
        rw [if_pos hfl]
        simp only [hget]
        have hnot : ¬ ∀ j, j < n + 1 →
            ((i + j) % (gap * 2) < gap → i + j + gap < column.length) := by
          intro hall
          have := hall 0 (by omega) (by simpa using hfl)
          omega
        rw [if_neg hnot]
    · cases hget : column.get? (i - gap) with
      | none =>
        exfalso
        rw [List.get?_eq_none] at hget
        omega
      | some v =>
        simp only [oppLoop]
        rw [if_neg hfl, if_pos hmod]
        simp only [hget]
        rw [hflag, ih (i + 1) (by omega)]
        by_cases hcond : ∀ j, j < n →
            ((i + 1 + j) % (gap * 2) < gap → i + 1 + j + gap < column.length)
        · rw [if_pos hcond]
          have hcond' : ∀ j, j < n + 1 →
              ((i + j) % (gap * 2) < gap → i + j + gap < column.length) := by
            intro j hj hmodj
            cases j with
            | zero => exact absurd (by simpa using hmodj) hfl
            | succ j' =>
              have e : i + (j' + 1) = i + 1 + j' := by omega
              rw [e] at hmodj ⊢
              exact hcond j' (by omega) hmodj
          rw [if_pos hcond']
          simp only [Except.map]
          congr 1
          rw [List.range_succ_eq_map]
          simp only [List.map_cons, List.map_map]
          congr 1
          · have e : oppIndex gap (i + 0) = i - gap := by
              simp only [oppIndex, Nat.add_zero]
              rw [if_neg hfl]
            rw [e, hget]
            rfl
          · apply List.map_congr_left
            intro j _
            have e : i + 1 + j = i + (j + 1) := by omega
            simp [Function.comp, e, Nat.succ_eq_add_one]
        · rw [if_neg hcond]
          have hnot : ¬ ∀ j, j < n + 1 →
              ((i + j) % (gap * 2) < gap → i + j + gap < column.length) := by
            intro hall
            apply hcond
            intro j hj hmodj
            have e : i + 1 + j = i + (j + 1) := by omega
            rw [e] at hmodj ⊢
            exact hall (j + 1) (by omega) hmodj
          rw [if_neg hnot]
          rfl

/-- The full characterization of get_opponent at a recognized entity:
it succeeds, returning for each index the value at the cycle-determined
offset, exactly when no first-half-of-cycle index reads past the end. -/
theorem get_opponent_char (column : List Cell) (entity : String) (gap : Nat)
    (hent : (entity = "team" ∧ gap = 1) ∨ (entity = "player" ∧ gap = 5)) :
    get_opponent column (some entity) =
      if ∀ j, j < column.length → (j % (gap * 2) < gap → j + gap < column.length)
      then .ok ((List.range column.length).map
        (fun j => (column.get? (oppIndex gap j)).getD none))
      else .error "IndexError" := by
  rcases hent with ⟨rfl, rfl⟩ | ⟨rfl, rfl⟩
  · have h := oppLoop_spec column 1 (by omega) column.length 0 (by omega)
    simp only [Nat.zero_add] at h
    show oppLoop column 1 column.length 0 0 = _
    have h0 : (0 : Nat) % (1 * 2) = 0 := rfl
    rw [← h0]
    exact h
  · have h := oppLoop_spec column 5 (by omega) column.length 0 (by omega)
    simp only [Nat.zero_add] at h
    show oppLoop column 5 column.length 0 0 = _
    have h0 : (0 : Nat) % (5 * 2) = 0 := rfl
    rw [← h0]
    exact h

/-! ### Monadic inversion helpers -/

theorem except_bind_ok {eps alpha beta : Type} {x : Except eps alpha}
    {f : alpha → Except eps beta} {b : beta}
    (h : x >>= f = .ok b) : ∃ a, x = .ok a ∧ f a = .ok b := by
  cases x with
  | ok a => exact ⟨a, rfl, h⟩
  | error e => simp [Bind.bind, Except.bind] at h

theorem except_bind_ok_of {eps alpha beta : Type} {x : Except eps alpha}
    {f : alpha → Except eps beta} {a : alpha}
    (hx : x = .ok a) : x >>= f = f a := by
  rw [hx]
  rfl

/-! ### Stability of the insertion sort -/

theorem filter_orderedInsert_key {alpha kappa : Type} [DecidableEq kappa]
    (key : alpha → kappa) (r : alpha → alpha → Prop) [DecidableRel r]
    (hkey : ∀ a b, key a = key b → r a b) (x : alpha) (k : kappa) :
    ∀ l : List alpha,
      (List.orderedInsert r x l).filter (fun a => decide (key a = k)) =
        (x :: l).filter (fun a => decide (key a = k))
  | [] => rfl
  | y :: l => by
    simp only [List.orderedInsert]
    by_cases hxy : r x y
    · rw [if_pos hxy]
    · rw [if_neg hxy]
      have hk : key x ≠ key y := fun he => hxy (hkey x y he)
      by_cases hky : key y = k
      · have hkx : ¬ key x = k := fun he => hk (he.trans hky.symm)
        have e1 : (y :: List.orderedInsert r x l).filter (fun a => decide (key a = k)) =
            y :: (List.orderedInsert r x l).filter (fun a => decide (key a = k)) := by
          rw [List.filter_cons]
          simp [hky]
        have e2 : ((x :: y :: l).filter (fun a => decide (key a = k))) =
            y :: l.filter (fun a => decide (key a = k)) := by
          rw [List.filter_cons, List.filter_cons]
          simp [hky, hkx]
        rw [e1, e2, filter_orderedInsert_key key r hkey x k l, List.filter_cons]
        simp [hkx]
      · have e1 : (y :: List.orderedInsert r x l).filter (fun a => decide (key a = k)) =
            (List.orderedInsert r x l).filter (fun a => decide (key a = k)) := by
          rw [List.filter_cons]
          simp [hky]
        have e2 : ((x :: y :: l).filter (fun a => decide (key a = k))) =
            ((x :: l).filter (fun a => decide (key a = k))) := by
          rw [List.filter_cons, List.filter_cons, List.filter_cons]
          simp [hky]
        rw [e1, e2, filter_orderedInsert_key key r hkey x k l]

theorem filter_insertionSort_key {alpha kappa : Type} [DecidableEq kappa]
    (key : alpha → kappa) (r : alpha → alpha → Prop) [DecidableRel r]
    (hkey : ∀ a b, key a = key b → r a b) (k : kappa) :
    ∀ l : List alpha,
      (List.insertionSort r l).filter (fun a => decide (key a = k)) =
        l.filter (fun a => decide (key a = k))
  | [] => rfl
  | x :: l => by
    simp only [List.insertionSort]
    rw [filter_orderedInsert_key key r hkey x k (List.insertionSort r l)]
    rw [List.filter_cons, List.filter_cons, filter_insertionSort_key key r hkey k l]

/-! ### Column and stage lemmas -/

theorem zipWith_const_right {alpha beta : Type} :
    ∀ (l1 : List alpha) (l2 : List beta), l1.length = l2.length →
      List.zipWith (fun _ b => b) l1 l2 = l2
  | [], [], _ => rfl
  | [], _ :: _, h => by simp at h
  | _ :: _, [], h => by simp at h
  | _ :: l1, _ :: l2, h => by
    simp only [List.zipWith]
    rw [zipWith_const_right l1 l2 (by simpa using h)]

theorem colVals_setCol (df : DataFrame) (c : String) (vs : List Cell)
    (hlen : vs.length = df.rows.length) :
    colVals (setCol df c vs) c = vs := by
  unfold colVals setCol
  simp only [List.map_zipWith, if_pos]
  exact zipWith_const_right df.rows vs hlen.symm

theorem colVals_length (df : DataFrame) (c : String) :
    (colVals df c).length = df.rows.length := by
  unfold colVals
  exact List.length_map _ _

/-- The effect of one pandas column assignment on the column list. -/
def addCol (cs : List String) (c : String) : List String :=
  if c ∈ cs then cs else cs ++ [c]

theorem setCol_cols (df : DataFrame) (c : String) (vs : List Cell) :
    (setCol df c vs).cols = addCol df.cols c := rfl

theorem fill_null_team_ids_of_ne (df : DataFrame) (s : Option String)
    (h : s ≠ some "player") : fill_null_team_ids df s = df := by
  unfold fill_null_team_ids
  rw [if_neg h]

theorem fill_null_team_ids_player (df : DataFrame) :
    colVals (fill_null_team_ids df (some "player")) "teamid" =
      List.zipWith fillCell (colVals df "teamid") (colVals df "teamname") := by
  unfold fill_null_team_ids
  rw [if_pos rfl]
  apply colVals_setCol
  rw [List.length_zipWith, colVals_length, colVals_length]
  exact Nat.min_self _

theorem remove_inconsistent_cols (df : DataFrame) (s : String) (out : DataFrame)
    (h : remove_inconsistent_games df (some s) = .ok out) : out.cols = df.cols := by
  unfold remove_inconsistent_games at h
  simp only [Except.ok.injEq] at h
  rw [← h]

theorem enrich_cols (df : DataFrame) (s : Option String) (out : DataFrame)
    (h : enrich_opponent_metrics df s = .ok out) :
    out.cols =
      if s = some "player"
      then addCol (addCol (addCol (addCol (addCol (addCol (addCol df.cols
        "teamid") "opponentteam") "opponentteamid") "opponent_egpm")
        "playerid") "opponentname") "opponentid"
      else addCol (addCol (addCol (addCol df.cols
        "teamid") "opponentteam") "opponentteamid") "opponent_egpm" := by
  unfold enrich_opponent_metrics at h
  obtain ⟨a1, h1, h⟩ := except_bind_ok h
  obtain ⟨a2, h2, h⟩ := except_bind_ok h
  obtain ⟨a3, h3, h⟩ := except_bind_ok h
  by_cases hs : s = some "player"
  · rw [if_pos hs] at h ⊢
    obtain ⟨a4, h4, h⟩ := except_bind_ok h
    obtain ⟨a5, h5, h⟩ := except_bind_ok h
    simp only [pure, Except.pure, Except.ok.injEq] at h
    rw [← h]
    rfl
  · rw [if_neg hs] at h ⊢
    simp only [pure, Except.pure, Except.ok.injEq] at h
    rw [← h]
    rfl

theorem subset_cols (df : DataFrame) (s : Option String) (out : DataFrame)
    (h : subset_data df s = .ok out) :
    (s = some "team" ∧ out.cols = teamColsList) ∨
    (s = some "player" ∧ out.cols = playerColsList) := by
  cases s with
  | none => simp [subset_data] at h
  | some s' =>
    simp only [subset_data] at h
    by_cases hts : s' = "team" ∨ s' = "player"
    · rw [if_pos hts] at h
      simp only [Bind.bind, Except.bind, pure, Except.pure] at h
      split_ifs at h <;> try exact Except.noConfusion h
      all_goals simp only [Except.ok.injEq] at h
      all_goals rw [← h]
      all_goals simp_all
    · rw [if_neg hts] at h
      simp at h

theorem remove_inconsistent_rows (df : DataFrame) (s : String) (out : DataFrame)
    (h : remove_inconsistent_games df (some s) = .ok out) :
    out.rows = df.rows.filter (fun r =>
      match r "gameid" with
      | none => true
      | some g => decide (countVal df.rows g = (if lowerStr s = "team" then 2 else 10))) := by
  unfold remove_inconsistent_games at h
  simp only [Except.ok.injEq] at h
  rw [← h]

theorem countVal_filter_keep (rows : List Row) (g : Val)
    (p : Row → Bool) (hp : ∀ r ∈ rows, r "gameid" = some g → p r = true) :
    countVal (rows.filter p) g = countVal rows g := by
  unfold countVal
  rw [List.filter_filter]
  congr 1
  apply List.filter_congr
  intro r hr
  by_cases hg : r "gameid" = some g
  · simp [hg, hp r hr hg]
  · simp [hg]

/-- C1 (amended): in the released `clean_data`, the Consistency Filter is
applied immediately BEFORE the Opponent Enricher, not after it: whenever the
shared pipeline prefix through `subset_data` succeeds with table `pre`, the
remainder of `clean_data` is exactly `remove_inconsistent_games` followed by
`enrich_opponent_metrics`. -/
theorem clean_data_factor (df : DataFrame) (s : Option String) (pre : DataFrame)
    (h : pipeline_before_filter df s = .ok pre) :
    clean_data df s =
      (remove_inconsistent_games pre s >>= fun t => enrich_opponent_metrics t s) := by
  unfold pipeline_before_filter at h
  obtain ⟨t, ht, h⟩ := except_bind_ok h
  obtain ⟨u, hu, h⟩ := except_bind_ok h
  unfold clean_data
  rw [ht]
  simp only [Bind.bind, Except.bind]
  rw [hu]
  simp only [Except.bind]
  cases hsort : sort_data u s with
  | none =>
    simp only [hsort] at h
    exact Except.noConfusion h
  | some d =>
    simp only [hsort] at h
    simp only [hsort]
    rw [h]

instance exceptDecEq {eps alpha : Type} [DecidableEq eps] [DecidableEq alpha] :
    DecidableEq (Except eps alpha)
  | .error a, .error b =>
    if h : a = b then isTrue (by rw [h]) else isFalse (fun he => h (Except.error.inj he))
  | .error _, .ok _ => isFalse Except.noConfusion
  | .ok _, .error _ => isFalse Except.noConfusion
  | .ok a, .ok b =>
    if h : a = b then isTrue (by rw [h]) else isFalse (fun he => h (Except.ok.inj he))

/-! ### The claims -/

/-- Error projection of an Except value, used to state counterexamples about
failing runs without needing decidable equality of DataFrames. -/
def errOf {alpha : Type} : Except String alpha → Option String
  | .error e => some e
  | .ok _ => none

/-- C1 (counterexample): on a concrete table holding one complete game g1 and
one ragged single-row game g2, the released `clean_data` succeeds and returns
only the two g1 rows (the size filter ran BEFORE enrichment and removed g2),
while the ordering asserted by the claim (`clean_data_filter_after_enrich`,
the same stages with the Consistency Filter after the Opponent Enricher)
fails with IndexError.  So `clean_data` does not place game-size filtering
after opponent enrichment. -/
theorem clean_data_order_counterexample :
    (clean_data dfRagged (some "team")).toOption.map (fun o => colVals o "gameid") =
        some [some (Val.s "g1"), some (Val.s "g1")] ∧
      errOf (clean_data_filter_after_enrich dfRagged (some "team")) = some "IndexError" :=
  ⟨by decide, by decide⟩

/-- C1 (witness): the amended ordering contract instantiated on the concrete
ragged table. -/
theorem clean_data_factor_witness :
    ∃ pre, pipeline_before_filter dfRagged (some "team") = .ok pre ∧
      clean_data dfRagged (some "team") =
        (remove_inconsistent_games pre (some "team") >>= fun t =>
          enrich_opponent_metrics t (some "team")) := by
  cases hx : pipeline_before_filter dfRagged (some "team") with
  | error e =>
    have hsome : (pipeline_before_filter dfRagged (some "team")).toOption.isSome = true := by
      decide
    rw [hx] at hsome
    simp [Except.toOption] at hsome
  | ok pre => exact ⟨pre, rfl, clean_data_factor dfRagged (some "team") pre hx⟩

/-- C2: on every input column and recognized entity (gap 1 for team, 5 for
player), a successful get_opponent returns a list of the same length whose
i-th element is the input element at offset `+gap` when the running cycle
position `i mod 2*gap` lies in `[0, gap)` and at offset `-gap` otherwise;
the cycle position is a pure running counter over the whole list (it depends
only on `i`, never on game boundaries). -/
theorem get_opponent_cycle (column : List Cell) (entity : String) (gap : Nat)
    (hent : (entity = "team" ∧ gap = 1) ∨ (entity = "player" ∧ gap = 5))
    (out : List Cell) (hok : get_opponent column (some entity) = .ok out) :
    out.length = column.length ∧
      ∀ i, i < column.length →
        out.get? i = column.get? (if i % (gap * 2) < gap then i + gap else i - gap) := by
  have hchar := get_opponent_char column entity gap hent
  rw [hok] at hchar
  by_cases hcond : ∀ j, j < column.length → (j % (gap * 2) < gap → j + gap < column.length)
  · rw [if_pos hcond] at hchar
    have hout := Except.ok.inj hchar
    subst hout
    constructor
    · rw [List.length_map, List.length_range]
    · intro i hi
      rw [List.get?_map, List.get?_range hi]
      have hgap : 0 < gap := by rcases hent with ⟨_, rfl⟩ | ⟨_, rfl⟩ <;> omega
      simp only [Option.map_some']
      unfold oppIndex
      by_cases hflag : i % (gap * 2) < gap
      · rw [if_pos hflag]
        have hlt : i + gap < column.length := hcond i hi hflag
        rw [List.get?_eq_get hlt]
        simp
      · rw [if_neg hflag]
        have hlt : i - gap < column.length := by omega
        rw [List.get?_eq_get hlt]
        simp
  · rw [if_neg hcond] at hchar
    exact Except.noConfusion hchar

/-- C2 (witness): the cycle contract instantiated at a concrete two-element
team column. -/
theorem get_opponent_cycle_witness :
    ([some (Val.s "b"), some (Val.s "a")] : List Cell).length =
        ([some (Val.s "a"), some (Val.s "b")] : List Cell).length ∧
      ∀ i, i < ([some (Val.s "a"), some (Val.s "b")] : List Cell).length →
        ([some (Val.s "b"), some (Val.s "a")] : List Cell).get? i =
          ([some (Val.s "a"), some (Val.s "b")] : List Cell).get?
            (if i % (1 * 2) < 1 then i + 1 else i - 1) :=
  get_opponent_cycle [some (Val.s "a"), some (Val.s "b")] "team" 1 (Or.inl ⟨rfl, rfl⟩)
    [some (Val.s "b"), some (Val.s "a")] (by decide)

/-- C3 (counterexample): with `split_on = "Team"` — a value other than the
exact string "team", for which the claim asserts surviving games have
exactly 10 rows — the code lowercases the argument and keeps the two-row
game g, which therefore appears in the output with 2 rows, not 10. -/
theorem remove_inconsistent_case_counterexample :
    (remove_inconsistent_games dfTwo (some "Team")).toOption.map
      (fun o => colVals o "gameid") = some [some (Val.s "g"), some (Val.s "g")] := by
  decide

/-- C3 (amended): for every table and string `split_on`, every gameid present
in the output of remove_inconsistent_games occurs in exactly 2 rows when
`split_on` LOWERCASES to "team" and exactly 10 rows otherwise, and no row of
a game with the expected count is removed. -/
theorem remove_inconsistent_group_size (df : DataFrame) (s : String) (out : DataFrame)
    (h : remove_inconsistent_games df (some s) = .ok out) :
    (∀ g : Val, (∃ r ∈ out.rows, r "gameid" = some g) →
        countVal out.rows g = (if lowerStr s = "team" then 2 else 10)) ∧
    (∀ r ∈ df.rows, ∀ g : Val, r "gameid" = some g →
        countVal df.rows g = (if lowerStr s = "team" then 2 else 10) →
          r ∈ out.rows) := by
  have hrows := remove_inconsistent_rows df s out h
  constructor
  · rintro g ⟨r, hr, hg⟩
    rw [hrows] at hr
    have hmem := List.mem_filter.mp hr
    have hcount : countVal df.rows g = (if lowerStr s = "team" then 2 else 10) := by
      have hpred := hmem.2
      simp only [hg] at hpred
      exact of_decide_eq_true hpred
    rw [hrows, countVal_filter_keep df.rows g _ ?_, hcount]
    intro r' _ hg'
    simp only [hg']
    simp [hcount]
  · intro r hr g hg hcount
    rw [hrows]
    apply List.mem_filter.mpr
    refine ⟨hr, ?_⟩
    simp only [hg]
    simp [hcount]

/-- C3 (witness): the amended group-size invariant instantiated on the
concrete two-row table at split_on = "team". -/
theorem remove_inconsistent_group_size_witness :
    ∃ out, remove_inconsistent_games dfTwo (some "team") = .ok out ∧
      ((∀ g : Val, (∃ r ∈ out.rows, r "gameid" = some g) →
          countVal out.rows g = (if lowerStr "team" = "team" then 2 else 10)) ∧
       (∀ r ∈ dfTwo.rows, ∀ g : Val, r "gameid" = some g →
          countVal dfTwo.rows g = (if lowerStr "team" = "team" then 2 else 10) →
            r ∈ out.rows)) := by
  cases hx : remove_inconsistent_games dfTwo (some "team") with
  | error e =>
    have hsome : (remove_inconsistent_games dfTwo (some "team")).toOption.isSome = true := by
      decide
    rw [hx] at hsome
    simp [Except.toOption] at hsome
  | ok out => exact ⟨out, rfl, remove_inconsistent_group_size dfTwo "team" out hx⟩

/-- C4: opponent symmetry at team granularity — on any column of even length
get_opponent succeeds and pairs adjacent rows symmetrically: for every even
index i, the opponent value at i is the input value at i+1 and the opponent
value at i+1 is the input value at i. -/
theorem get_opponent_team_symmetry (column : List Cell) (heven : column.length % 2 = 0) :
    ∃ out, get_opponent column (some "team") = .ok out ∧
      ∀ i, i % 2 = 0 → i + 1 < column.length →
        out.get? i = column.get? (i + 1) ∧ out.get? (i + 1) = column.get? i := by
  have hchar := get_opponent_char column "team" 1 (Or.inl ⟨rfl, rfl⟩)
  have hcond : ∀ j, j < column.length → (j % (1 * 2) < 1 → j + 1 < column.length) := by
    intro j hj hmod
    omega
  rw [if_pos hcond] at hchar
  refine ⟨_, hchar, ?_⟩
  intro i hi hi1
  constructor
  · rw [List.get?_map, List.get?_range (by omega)]
    simp only [Option.map_some']
    have he : oppIndex 1 i = i + 1 := by
      unfold oppIndex
      rw [if_pos (by omega)]
    rw [he, List.get?_eq_get hi1]
    simp
  · rw [List.get?_map, List.get?_range (by omega)]
    simp only [Option.map_some']
    have he : oppIndex 1 (i + 1) = i := by
      unfold oppIndex
      rw [if_neg (by omega)]
      omega
    rw [he, List.get?_eq_get (show i < column.length by omega)]
    simp

/-- C4 (witness): symmetry on a concrete two-row team column. -/
theorem get_opponent_team_symmetry_witness :
    ∃ out, get_opponent [some (Val.s "a"), some (Val.s "b")] (some "team") = .ok out ∧
      ∀ i, i % 2 = 0 → i + 1 < ([some (Val.s "a"), some (Val.s "b")] : List Cell).length →
        out.get? i = ([some (Val.s "a"), some (Val.s "b")] : List Cell).get? (i + 1) ∧
          out.get? (i + 1) = ([some (Val.s "a"), some (Val.s "b")] : List Cell).get? i :=
  get_opponent_team_symmetry [some (Val.s "a"), some (Val.s "b")] (by decide)

/-- C5: get_opponent raises IndexError exactly in the claimed situation —
whenever some index i in the first half of its cycle (i mod 2*gap < gap)
would read offset +gap past the end of the column, the whole call returns
the IndexError instead of a result. -/
theorem get_opponent_index_error (column : List Cell) (entity : String) (gap : Nat)
    (hent : (entity = "team" ∧ gap = 1) ∨ (entity = "player" ∧ gap = 5))
    (hbad : ∃ i, i < column.length ∧ i % (gap * 2) < gap ∧ column.length ≤ i + gap) :
    get_opponent column (some entity) = .error "IndexError" := by
  have hchar := get_opponent_char column entity gap hent
  have hc : ¬ ∀ j, j < column.length → (j % (gap * 2) < gap → j + gap < column.length) := by
    obtain ⟨i, h1, h2, h3⟩ := hbad
    intro hall
    have := hall i h1 h2
    omega
  rw [if_neg hc] at hchar
  exact hchar

/-- C5 (witness): a one-element team column (odd length) raises IndexError. -/
theorem get_opponent_index_error_witness :
    get_opponent [some (Val.s "a")] (some "team") = .error "IndexError" :=
  get_opponent_index_error [some (Val.s "a")] "team" 1 (Or.inl ⟨rfl, rfl⟩)
    ⟨0, by decide, by decide, by decide⟩

/-- C6 (counterexample): at team granularity the Identifier Backfiller does
nothing: on a one-row table whose teamid is missing (and whose teamname is
present), the teamid column still holds a missing value after
fill_null_team_ids runs with split_on = "team".  The claim that every row
has a non-missing entity identifier after this stage is therefore false. -/
theorem fill_null_team_ids_counterexample :
    colVals (fill_null_team_ids dfOneMissing (some "team")) "teamid" = [none] := by
  decide

/-- C6 (amended): fill_null_team_ids is the identity for every split_on
other than exactly "player"; at player granularity it backfills the teamid
column (not playerid) cell-wise from teamname.  Entity identifiers are only
backfilled later, inside enrich_opponent_metrics. -/
theorem fill_null_team_ids_spec (df : DataFrame) (s : Option String) :
    (s ≠ some "player" → fill_null_team_ids df s = df) ∧
    colVals (fill_null_team_ids df (some "player")) "teamid" =
      List.zipWith fillCell (colVals df "teamid") (colVals df "teamname") :=
  ⟨fun h => fill_null_team_ids_of_ne df s h, fill_null_team_ids_player df⟩

/-- C6 (witness): the amended backfill contract instantiated on the concrete
one-row table. -/
theorem fill_null_team_ids_spec_witness :
    (fill_null_team_ids dfOneMissing (some "team") = dfOneMissing) ∧
    colVals (fill_null_team_ids dfOneMissing (some "player")) "teamid" =
      List.zipWith fillCell (colVals dfOneMissing "teamid") (colVals dfOneMissing "teamname") :=
  ⟨(fill_null_team_ids_spec dfOneMissing (some "team")).1 (by decide),
   (fill_null_team_ids_spec dfOneMissing (some "team")).2⟩

theorem rowLeTeam_of_key_eq {a b : Row} (h : rowKeyTeam a = rowKeyTeam b) :
    rowLeTeam a b := by
  unfold rowLeTeam
  rw [h, keyCmp_refl]
  simp

theorem rowLePlayer_of_key_eq {a b : Row} (h : rowKeyPlayer a = rowKeyPlayer b) :
    rowLePlayer a b := by
  unfold rowLePlayer
  rw [h, keyCmp_refl]
  simp

/-- C7: at both recognized granularities sort_data succeeds, preserves the
column list, orders the rows by the granularity sort key (league, date,
gameid, side, and position for players), and is stable: the rows carrying
any fixed key value appear in the output in exactly their input order. -/
theorem sort_data_sorted_stable (df : DataFrame) (s : Option String)
    (hs : s = some "team" ∨ s = some "player") :
    ∃ out, sort_data df s = some out ∧ out.cols = df.cols ∧
      (s = some "team" →
        out.rows.Sorted rowLeTeam ∧
        ∀ k : List Cell,
          out.rows.filter (fun r => decide (rowKeyTeam r = k)) =
            df.rows.filter (fun r => decide (rowKeyTeam r = k))) ∧
      (s = some "player" →
        out.rows.Sorted rowLePlayer ∧
        ∀ k : List Cell,
          out.rows.filter (fun r => decide (rowKeyPlayer r = k)) =
            df.rows.filter (fun r => decide (rowKeyPlayer r = k))) := by
  rcases hs with rfl | rfl
  · refine ⟨_, rfl, rfl, fun _ => ⟨?_, ?_⟩, fun hc => absurd hc (by decide)⟩
    · exact List.sorted_insertionSort rowLeTeam df.rows
    · intro k
      exact filter_insertionSort_key rowKeyTeam rowLeTeam
        (fun a b hk => rowLeTeam_of_key_eq hk) k df.rows
  · refine ⟨_, rfl, rfl, fun hc => absurd hc (by decide), fun _ => ⟨?_, ?_⟩⟩
    · exact List.sorted_insertionSort rowLePlayer df.rows
    · intro k
      exact filter_insertionSort_key rowKeyPlayer rowLePlayer
        (fun a b hk => rowLePlayer_of_key_eq hk) k df.rows

/-- C7 (witness): the sorting contract instantiated on a concrete table at
team granularity. -/
theorem sort_data_sorted_stable_witness :
    ∃ out, sort_data dfMissingTid (some "team") = some out ∧
      out.cols = dfMissingTid.cols ∧
      (some "team" = some "team" →
        out.rows.Sorted rowLeTeam ∧
        ∀ k : List Cell,
          out.rows.filter (fun r => decide (rowKeyTeam r = k)) =
            dfMissingTid.rows.filter (fun r => decide (rowKeyTeam r = k))) ∧
      (some "team" = some "player" →
        out.rows.Sorted rowLePlayer ∧
        ∀ k : List Cell,
          out.rows.filter (fun r => decide (rowKeyPlayer r = k)) =
            dfMissingTid.rows.filter (fun r => decide (rowKeyPlayer r = k))) :=
  sort_data_sorted_stable dfMissingTid (some "team") (Or.inl rfl)

/-- C8: whenever clean_data succeeds, the column list of the returned table
is exactly the fixed schema of the requested granularity: the subset_data
column list followed by the opponent columns appended by the enricher, in
assignment order — no extra columns and none missing. -/
theorem clean_data_schema (df : DataFrame) (s : Option String) (out : DataFrame)
    (h : clean_data df s = .ok out) :
    (s = some "team" ∧
      out.cols = teamColsList ++ ["opponentteam", "opponentteamid", "opponent_egpm"]) ∨
    (s = some "player" ∧
      out.cols = playerColsList ++
        ["opponentteam", "opponentteamid", "opponent_egpm", "opponentname", "opponentid"]) := by
  unfold clean_data at h
  obtain ⟨t, ht, h⟩ := except_bind_ok h
  obtain ⟨u, hu, h⟩ := except_bind_ok h
  cases hsort : sort_data u s with
  | none =>
    simp only [hsort] at h
    exact Except.noConfusion h
  | some d =>
    simp only [hsort] at h
    obtain ⟨v, hv, h⟩ := except_bind_ok h
    obtain ⟨w, hw, h⟩ := except_bind_ok h
    rcases subset_cols _ _ _ hv with ⟨rfl, hcols⟩ | ⟨rfl, hcols⟩
    · left
      refine ⟨rfl, ?_⟩
      have hrc := remove_inconsistent_cols v "team" w hw
      have he := enrich_cols w (some "team") out h
      rw [if_neg (by decide)] at he
      rw [he, hrc, hcols]
      decide
    · right
      refine ⟨rfl, ?_⟩
      have hrc := remove_inconsistent_cols v "player" w hw
      have he := enrich_cols w (some "player") out h
      rw [if_pos rfl] at he
      rw [he, hrc, hcols]
      decide

/-- C8 (witness): the schema contract instantiated on a concrete raw table
for which the full pipeline succeeds at team granularity. -/
theorem clean_data_schema_witness :
    ∃ out, clean_data dfMissingTid (some "team") = .ok out ∧
      ((some "team" = some "team" ∧
        out.cols = teamColsList ++ ["opponentteam", "opponentteamid", "opponent_egpm"]) ∨
       ((some "team" : Option String) = some "player" ∧
        out.cols = playerColsList ++
          ["opponentteam", "opponentteamid", "opponent_egpm", "opponentname", "opponentid"])) := by
  cases hx : clean_data dfMissingTid (some "team") with
  | error e =>
    have hsome : (clean_data dfMissingTid (some "team")).toOption.isSome = true := by decide
    rw [hx] at hsome
    simp [Except.toOption] at hsome
  | ok out => exact ⟨out, rfl, clean_data_schema dfMissingTid (some "team") out hx⟩

/-- C9: for every table on which the stages preceding the sorter succeed
(the Type Normalizer parses it and the Entity Filter finds its playername
and teamname columns) and every split_on outside the two recognized exact
strings (None, "Team", "PLAYER", ...), clean_data fails with the
subset_data ValueError and returns no cleaned table: sort_data returns
None, fill_null_team_ids passes it through, and subset_data raises before
touching the data.  A table those earlier stages reject aborts with their
own error instead, so the hypothesis is exactly the reachability condition
of the granularity check. -/
theorem clean_data_invalid_granularity (df : DataFrame) (s : Option String)
    (hpre : ∃ t, (format_data_types df >>= fun u =>
      drop_unknown_entities (remove_null_games u)) = .ok t)
    (hs1 : s ≠ some "team") (hs2 : s ≠ some "player") :
    clean_data df s = .error "Must split on either player or team." := by
  obtain ⟨t, hpre⟩ := hpre
  obtain ⟨u, hu, hd⟩ := except_bind_ok hpre
  unfold clean_data
  rw [hu]
  simp only [Bind.bind, Except.bind]
  rw [hd]
  simp only [Except.bind]
  have hsort : sort_data t s = none := by
    unfold sort_data
    rw [if_neg hs2, if_neg hs1]
  simp only [hsort]

/-- C9 (witness): the differently-cased granularity "Team" on a concrete
table that the Type Normalizer and the Entity Filter both accept. -/
theorem clean_data_invalid_granularity_witness :
    (∃ t, (format_data_types dfSmall >>= fun u =>
      drop_unknown_entities (remove_null_games u)) = .ok t) ∧
    clean_data dfSmall (some "Team") = .error "Must split on either player or team." := by
  have hpre : ∃ t, (format_data_types dfSmall >>= fun u =>
      drop_unknown_entities (remove_null_games u)) = .ok t := by
    cases hx : (format_data_types dfSmall >>= fun u =>
        drop_unknown_entities (remove_null_games u)) with
    | error e =>
      have hsome : (format_data_types dfSmall >>= fun u =>
          drop_unknown_entities (remove_null_games u)).toOption.isSome = true := by decide
      rw [hx] at hsome
      simp [Except.toOption] at hsome
    | ok t => exact ⟨t, rfl⟩
  exact ⟨hpre,
    clean_data_invalid_granularity dfSmall (some "Team") hpre (by decide) (by decide)⟩

/-- C10: the opponent identifier column is computed from the identifier
column as it stands before the enricher-internal backfill: on a concrete
team-granularity table where one row's raw teamid is missing, the cleaned
output holds only non-missing teamid values (backfilled from teamname) while
its opponentteamid column still contains the missing value read from the raw
teamid column. -/
theorem enrich_uses_unbackfilled_ids :
    (clean_data dfMissingTid (some "team")).toOption.map
      (fun o => (colVals o "teamid", colVals o "opponentteamid")) =
      some ([some (Val.s "T1"), some (Val.s "B")], [none, some (Val.s "T1")]) := by
  decide
